import Mathlib

/-!
# Verification of the chart data-binding and rendering engine

Shallow embedding of the report-designer's chart/table rendering core
(`src/components/CanvasElement.tsx`: `resolveData`, `renderChart`,
`renderTable`) and of the JSON import/export element shape
(`handleExport` / `handleFileChange`).

JavaScript values are modelled by the inductive `Value` (JSON values plus
a dedicated constructor for `undefined`); JavaScript numbers by `JsNum` (a rational, `NaN`,
or a signed infinity — `Math.sin` results are handled separately over `ℝ`).
-/

/-- A JavaScript value as seen by the rendering core: JSON data plus
`undefined`.  Numbers are modelled as rationals (the data context is parsed
JSON, so `NaN`/`Infinity` never occur *inside* a `Value`; they only arise
from arithmetic, which lives in `JsNum`). -/
inductive Value where
  | undefined : Value
  | null : Value
  | bool (b : Bool) : Value
  | num (q : ℚ) : Value
  | str (s : String) : Value
  | arr (elems : List Value) : Value
  | obj (fields : List (String × Value)) : Value
deriving Inhabited

/-- A JavaScript number: the result of arithmetic / `Number(...)` coercion. -/
inductive JsNum where
  | nan : JsNum
  | posInf : JsNum
  | negInf : JsNum
  | num (q : ℚ) : JsNum
deriving Repr, DecidableEq, Inhabited

/-- JS truthiness of a `Value` (`undefined`, `null`, `false`, `0`, `""` are
falsy; objects and arrays are always truthy). -/
def jsTruthy : Value → Bool
  | .undefined => false
  | .null => false
  | .bool b => b
  | .num q => q != 0
  | .str s => s != ""
  | .arr _ => true
  | .obj _ => true

/-- Models `a || b` on values: `a` if truthy, else `b`. -/
def jsOr (a b : Value) : Value := if jsTruthy a then a else b

/-- First-match association-list lookup, as JS property lookup on our
ordered field lists. -/
def lookupField : List (String × Value) → String → Option Value
  | [], _ => none
  | (k', v) :: rest, k => if k' = k then some v else lookupField rest k

/-- JS property *assignment* `o[k] = v`: replace the first binding of `k`
in place (JS keeps the original insertion position), else append. -/
def objSet : List (String × Value) → String → Value → List (String × Value)
  | [], k, v => [(k, v)]
  | (k', v') :: rest, k, v =>
      if k' = k then (k, v) :: rest else (k', v') :: objSet rest k v

/-- Parse a decimal digit string as a natural number (assumes digits). -/
def digitsVal (cs : List Char) : ℕ :=
  cs.foldl (fun a c => a * 10 + (c.toNat - 48)) 0

/-- A canonical array-index property name: digits with no leading zero. -/
def parseIndex (cs : List Char) : Option ℕ :=
  if cs ≠ [] ∧ cs.all Char.isDigit ∧ (cs = ['0'] ∨ cs.head? ≠ some '0')
  then some (digitsVal cs) else none

/-- JS property read `v[k]` on a *non-nullish* value: object field lookup,
array `length`/index, string `length`; other primitives have no own
properties (their prototype methods are irrelevant to this core) and yield
`undefined`.  Reading a property of `undefined`/`null` throws a
`TypeError`; that case is handled by `getProp` below, never here. -/
def getPropPure (v : Value) (k : String) : Value :=
  match v with
  | .obj fields => (lookupField fields k).getD .undefined
  | .arr l =>
      if k = "length" then .num l.length
      else match parseIndex k.data with
        | some i => (l.get? i).getD .undefined
        | none => .undefined
  | .str s => if k = "length" then .num s.length else .undefined
  | _ => .undefined

/-- JS property read with the real exception behaviour: `undefined[k]` and
`null[k]` throw a `TypeError`. -/
def getProp (v : Value) (k : String) : Except String Value :=
  match v with
  | .undefined => .error "TypeError"
  | .null => .error "TypeError"
  | _ => .ok (getPropPure v k)

/-- Split a character list at `'.'` (models `path.split('.')`; note
`"".split('.') = [""]`). -/
def splitDotAux : List Char → List Char → List (List Char)
  | [], acc => [acc.reverse]
  | c :: rest, acc =>
      if c = '.' then acc.reverse :: splitDotAux rest []
      else splitDotAux rest (c :: acc)

/-- The segments of a dotted path. -/
def pathSegs (path : String) : List String :=
  (splitDotAux path.data []).map (fun cs => String.mk cs)

/-- The fold body of `resolveData`:
`path.split('.').reduce((prev, curr) => prev ? prev[curr] : undefined, obj)`. -/
def resolveSegs : List String → Value → Value
  | [], v => v
  | c :: rest, v =>
      resolveSegs rest (if jsTruthy v then getPropPure v c else .undefined)

/-- Models `resolveData(path, obj)` from `CanvasElement.tsx`: walk the dotted path,
guarding each step by the truthiness of the accumulator. -/
def resolveData (path : String) (root : Value) : Value :=
  resolveSegs (pathSegs path) root

/-- The same walk with the real JS exception semantics made explicit: each
property read goes through `getProp`, which throws on nullish receivers. -/
def resolveSegsE : List String → Value → Except String Value
  | [], v => .ok v
  | c :: rest, v =>
      if jsTruthy v then
        match getProp v c with
        | .ok w => resolveSegsE rest w
        | .error e => .error e
      else resolveSegsE rest .undefined

/-- Exception-aware `resolveData`. -/
def resolveDataE (path : String) (root : Value) : Except String Value :=
  resolveSegsE (pathSegs path) root

lemma getProp_of_truthy {v : Value} (h : jsTruthy v = true) (k : String) :
    getProp v k = .ok (getPropPure v k) := by
  cases v <;> simp_all [jsTruthy, getProp]

lemma resolveSegs_undefined (segs : List String) :
    resolveSegs segs Value.undefined = Value.undefined := by
  induction segs with
  | nil => rfl
  | cons c rest ih => simpa [resolveSegs, jsTruthy] using ih

/-- The guarded walk never throws: it agrees with the total `resolveSegs`. -/
lemma resolveSegsE_ok (segs : List String) (v : Value) :
    resolveSegsE segs v = .ok (resolveSegs segs v) := by
  induction segs generalizing v with
  | nil => rfl
  | cons c rest ih =>
      by_cases h : jsTruthy v = true
      · simp [resolveSegsE, resolveSegs, h, getProp_of_truthy h, ih]
      · simp only [Bool.not_eq_true] at h
        simp [resolveSegsE, resolveSegs, h, ih]

lemma resolveSegs_falsy {v : Value} (h : jsTruthy v = false)
    {segs : List String} (hs : segs ≠ []) :
    resolveSegs segs v = Value.undefined := by
  cases segs with
  | nil => exact absurd rfl hs
  | cons c rest => simp [resolveSegs, h, resolveSegs_undefined]

/-! ## JavaScript number arithmetic (`JsNum`) -/

/-- Truthiness of a JS number (`NaN` and `0` are falsy, infinities truthy). -/
def jsTruthyN : JsNum → Bool
  | .nan => false
  | .num q => q != 0
  | _ => true

/-- Models `a || b` on numbers. -/
def jsOrN (a b : JsNum) : JsNum := if jsTruthyN a then a else b

def jsNeg : JsNum → JsNum
  | .nan => .nan
  | .posInf => .negInf
  | .negInf => .posInf
  | .num q => .num (-q)

def jsAdd : JsNum → JsNum → JsNum
  | .nan, _ => .nan
  | _, .nan => .nan
  | .posInf, .negInf => .nan
  | .negInf, .posInf => .nan
  | .posInf, _ => .posInf
  | _, .posInf => .posInf
  | .negInf, _ => .negInf
  | _, .negInf => .negInf
  | .num a, .num b => .num (a + b)

def jsSub (a b : JsNum) : JsNum := jsAdd a (jsNeg b)

def jsMul : JsNum → JsNum → JsNum
  | .nan, _ => .nan
  | _, .nan => .nan
  | .posInf, .posInf => .posInf
  | .posInf, .negInf => .negInf
  | .negInf, .posInf => .negInf
  | .negInf, .negInf => .posInf
  | .posInf, .num b => if b = 0 then .nan else if 0 < b then .posInf else .negInf
  | .num a, .posInf => if a = 0 then .nan else if 0 < a then .posInf else .negInf
  | .negInf, .num b => if b = 0 then .nan else if 0 < b then .negInf else .posInf
  | .num a, .negInf => if a = 0 then .nan else if 0 < a then .negInf else .posInf
  | .num a, .num b => .num (a * b)

/-- IEEE division as JS performs it (the model's sole zero is `+0`, the only
zero these computations produce). -/
def jsDiv : JsNum → JsNum → JsNum
  | .nan, _ => .nan
  | _, .nan => .nan
  | .posInf, .posInf => .nan
  | .posInf, .negInf => .nan
  | .negInf, .posInf => .nan
  | .negInf, .negInf => .nan
  | .posInf, .num b => if 0 ≤ b then .posInf else .negInf
  | .negInf, .num b => if 0 ≤ b then .negInf else .posInf
  | .num _, .posInf => .num 0
  | .num _, .negInf => .num 0
  | .num a, .num b =>
      if b = 0 then (if a = 0 then .nan else if 0 < a then .posInf else .negInf)
      else .num (a / b)

/-- Models `Math.max` on two arguments (`NaN` propagates). -/
def jsMax : JsNum → JsNum → JsNum
  | .nan, _ => .nan
  | _, .nan => .nan
  | .posInf, _ => .posInf
  | _, .posInf => .posInf
  | .negInf, b => b
  | a, .negInf => a
  | .num a, .num b => .num (max a b)

/-- Variadic `Math.max(...)` (identity `-Infinity`). -/
def jsMaxList (l : List JsNum) : JsNum := l.foldl jsMax .negInf

/-- JS `<=` comparison (false whenever `NaN` is involved). -/
def jsLe : JsNum → JsNum → Bool
  | .nan, _ => false
  | _, .nan => false
  | .negInf, _ => true
  | _, .posInf => true
  | .posInf, _ => false
  | _, .negInf => false
  | .num a, .num b => a ≤ b

/-- Models `Math.round` (half-up). -/
def jsRound : JsNum → JsNum
  | .num q => .num (⌊q + 1/2⌋ : ℤ)
  | n => n

def JsNum.isFinite : JsNum → Bool
  | .num _ => true
  | _ => false

/-- Interpretation of a finite JS number as a real (non-finite values are
read as `0`; every theorem using this does so under finiteness hypotheses). -/
def JsNum.toR : JsNum → ℝ
  | .num q => (q : ℝ)
  | _ => 0

/-! ## `Number(...)` coercion -/

def isJsSpace (c : Char) : Bool :=
  c = ' ' || c = '\t' || c = '\n' || c = '\r'

def trimChars (cs : List Char) : List Char :=
  ((cs.dropWhile isJsSpace).reverse.dropWhile isJsSpace).reverse

/-- Parse an unsigned decimal literal (`"12"`, `"1.5"`, `".5"`, `"1."`).
Exotic forms (exponents, hex, `"Infinity"`) are not exercised by this
codebase and parse as `NaN`. -/
def parseDec (cs : List Char) : Option ℚ :=
  match cs.splitOn '.' with
  | [int] =>
      if int ≠ [] ∧ int.all Char.isDigit then some (digitsVal int) else none
  | [int, frac] =>
      if (int ++ frac) ≠ [] ∧ (int ++ frac).all Char.isDigit then
        some ((digitsVal int : ℚ) + (digitsVal frac : ℚ) / 10 ^ frac.length)
      else none
  | _ => none

/-- JS `Number(string)`: trimmed empty string is `0`, optional sign, decimal
literal, otherwise `NaN`. -/
def strToNum (s : String) : JsNum :=
  match trimChars s.data with
  | [] => .num 0
  | '-' :: rest => match parseDec rest with
      | some q => .num (-q)
      | none => .nan
  | '+' :: rest => match parseDec rest with
      | some q => .num q
      | none => .nan
  | cs => match parseDec cs with
      | some q => .num q
      | none => .nan

/-- JS `ToNumber`: `undefined → NaN`, `null → 0`, booleans, strings via the
decimal parser; arrays via their primitive coercion (`[] → 0`, a singleton
via its element's string); plain objects are `NaN`. -/
def toNumber : Value → JsNum
  | .undefined => .nan
  | .null => .num 0
  | .bool b => .num (if b then 1 else 0)
  | .num q => .num q
  | .str s => strToNum s
  | .arr [] => .num 0
  | .arr [.num q] => .num q
  | .arr [.str s] => strToNum s
  | .arr _ => .nan
  | .obj _ => .nan

/-- Decimal rendering of a rational for `String(number)`: exact for the
integers that occur here; non-integers fall back to the raw rational text
(an approximation of JS float formatting, unexercised by the claims). -/
def numToString (q : ℚ) : String :=
  if q.den = 1 then toString q.num else toString q

mutual
/-- JS `String(v)` coercion. -/
def jsToString : Value → String
  | .undefined => "undefined"
  | .null => "null"
  | .bool b => if b then "true" else "false"
  | .num q => numToString q
  | .str s => s
  | .arr l => String.intercalate "," (jsToStringList l)
  | .obj _ => "[object Object]"

def jsToStringList : List Value → List String
  | [] => []
  | v :: vs => jsToString v :: jsToStringList vs
end

/-! ## String helpers (`toLowerCase`, `includes`) -/

def listStartsWith : List Char → List Char → Bool
  | _, [] => true
  | [], _ :: _ => false
  | c :: cs, p :: ps => c == p && listStartsWith cs ps

def listContainsSub : List Char → List Char → Bool
  | [], pat => pat.isEmpty
  | c :: cs, pat => listStartsWith (c :: cs) pat || listContainsSub cs pat

/-- Models `s.includes(pat)`. -/
def strIncludes (s pat : String) : Bool := listContainsSub s.data pat.data

/-- Models `s.toLowerCase()`. -/
def lowerStr (s : String) : String := String.mk (s.data.map Char.toLower)

/-- Models `s || dflt` on strings (empty string is falsy). -/
def strOr (s dflt : String) : String := if s = "" then dflt else s

/-- Truthiness of an optional string field (absent or empty is falsy). -/
def optTruthy : Option String → Bool
  | none => false
  | some s => s != ""

/-- Models `o || dflt` for an optional numeric style field (`0` is falsy). -/
def qOr (o : Option ℚ) (dflt : ℚ) : ℚ :=
  match o with
  | none => dflt
  | some q => if q = 0 then dflt else q

def isArray : Value → Bool
  | .arr _ => true
  | _ => false

/-! ## Element data model (`src/types.ts`) -/

inductive ElementType where
  | text | table | placeholder | header | footer | image
  | line | rectangle | barcode | qrcode | chart | list
deriving Repr, DecidableEq, Inhabited

structure ChartSeries where
  id : String
  dataKey : String
  label : String
  color : String
deriving Repr, DecidableEq, Inhabited

structure TableColumn where
  id : String
  header : String
  accessorKey : String
  width : Option ℚ := none
  align : Option String := none
deriving Repr, DecidableEq, Inhabited

inductive ChartKind where
  | bar | line | pie
deriving Repr, DecidableEq, Inhabited

inductive LegendPos where
  | top | bottom | left | right
deriving Repr, DecidableEq, Inhabited

/-- The style fields the chart/table rendering core reads (`ElementStyle`
is a sparse bag of optional fields). -/
structure ElementStyle where
  width : Option ℚ := none
  height : Option ℚ := none
  color : Option String := none
  fontFamily : Option String := none
  borderColor : Option String := none
  chartType : Option ChartKind := none
  chartCategoryKey : Option String := none
  chartShowLegend : Option Bool := none
  chartShowGrid : Option Bool := none
  chartShowDataLabels : Option Bool := none
  chartShowTotal : Option Bool := none
  chartLegendPosition : Option LegendPos := none
  tableHeaderBg : Option String := none
  tableHeaderColor : Option String := none
  tableRowBg : Option String := none
  tableStriped : Option Bool := none
  tableStripeColor : Option String := none
  tableShowGrid : Option Bool := none
deriving Repr, DecidableEq, Inhabited

structure ReportElement where
  id : String
  type : ElementType
  x : ℚ
  y : ℚ
  label : String
  content : Option String := none
  key : Option String := none
  src : Option String := none
  style : ElementStyle := {}
  columns : Option (List TableColumn) := none
  series : Option (List ChartSeries) := none
deriving Repr, DecidableEq, Inhabited

/-! ## Synthetic (dummy) chart data -/

/-- Models `s.dataKey.split('').reduce((acc, char) => acc + char.charCodeAt(0), 0)`. -/
def seedOf (s : String) : ℕ :=
  s.data.foldl (fun a c => a + c.toNat) 0

/-- Models `Math.floor((Math.sin(i + seed) + 1) * 40) + 20`: the deterministic
pseudo-value for category index `i` of the series hashed to `seed`. -/
noncomputable def synthValue (i seed : ℕ) : ℤ :=
  ⌊(Real.sin ((i : ℝ) + (seed : ℝ)) + 1) * 40⌋ + 20

/-- The dummy category labels, chosen by substring heuristics on the
lower-cased category key. -/
def synthCategories (categoryKey : String) : List String :=
  let lc := lowerStr categoryKey
  if strIncludes lc "month" then ["Jan", "Feb", "Mar", "Apr", "May"]
  else if strIncludes lc "year" then ["2020", "2021", "2022", "2023", "2024"]
  else if strIncludes lc "day" then ["Mon", "Tue", "Wed", "Thu", "Fri"]
  else if strIncludes lc "product" then ["Laptop", "Mouse", "Screen", "Keyboard", "Dock"]
  else ["Item A", "Item B", "Item C", "Item D", "Item E"]

/-- One dummy row: `{[categoryKey]: cat}` then
`series.forEach(s => row[s.dataKey] = ...)` in order. -/
noncomputable def synthRow (categoryKey : String) (seriesL : List ChartSeries)
    (cat : String) (i : ℕ) : Value :=
  .obj (seriesL.foldl
    (fun acc s => objSet acc s.dataKey (.num (synthValue i (seedOf s.dataKey))))
    [(categoryKey, .str cat)])

/-- The full dummy data array. -/
noncomputable def synthRows (categoryKey : String) (seriesL : List ChartSeries) :
    List Value :=
  (synthCategories categoryKey).enum.map
    (fun p => synthRow categoryKey seriesL p.2 p.1)

/-! ## Chart data resolution and layout -/

/-- The default series used when `element.series` is `undefined`
(note: an *empty* series array is truthy in JS and is kept as-is). -/
def defaultSeries : ChartSeries :=
  { id := "1", dataKey := "value", label := "Value", color := "#6366f1" }

def seriesOf (seriesOpt : Option (List ChartSeries)) : List ChartSeries :=
  match seriesOpt with
  | none => [defaultSeries]
  | some l => l

/-- Result of the chart's data-resolution step. -/
inductive ChartInput where
  | dataError : ChartInput
  | rows (data : List Value) : ChartInput

/-- Data resolution: in preview mode with a (truthy) key, resolve it and
require an array, else flag the error; otherwise generate dummy data. -/
noncomputable def chartInput (key : Option String) (categoryKey : String)
    (seriesL : List ChartSeries) (previewMode : Bool) (ctx : Value) : ChartInput :=
  if previewMode && optTruthy key then
    match resolveData (key.getD "") ctx with
    | .arr l => .rows l
    | _ => .dataError
  else .rows (synthRows categoryKey seriesL)

/-- Models `Number(resolveData(dataKey, row) || 0)`: the numeric value of one
series in one row (lines 235, 342, 366, 392, 400). -/
def resolvedNum (dataKey : String) (row : Value) : JsNum :=
  toNumber (jsOr (resolveData dataKey row) (.num 0))

/-- Models `data.flatMap(row => series.map(s => Number(resolveData(s.dataKey, row) || 0)))`. -/
def allValues (data : List Value) (seriesL : List ChartSeries) : List JsNum :=
  data.flatMap (fun row => seriesL.map (fun s => resolvedNum s.dataKey row))

/-- Models `Math.max(...allValues, 10) * 1.1` — the y-domain maximum. -/
def maxValue (vals : List JsNum) : JsNum :=
  jsMul (jsMaxList (vals ++ [.num 10])) (.num (11/10))

/-- Models `totalValue`: sum of every series value over every row, with
`isNaN(val) ? 0 : val` per value (line 227-232; no `|| 0` inside `Number`). -/
def totalValue (data : List Value) (seriesL : List ChartSeries) : JsNum :=
  data.foldl
    (fun acc row => jsAdd acc (seriesL.foldl
      (fun sAcc s =>
        jsAdd sAcc (let v := toNumber (resolveData s.dataKey row);
                    if v = .nan then .num 0 else v))
      (.num 0)))
    (.num 0)

def showLegendOf (st : ElementStyle) : Bool := st.chartShowLegend != some false
def legendPosOf (st : ElementStyle) : LegendPos := st.chartLegendPosition.getD .bottom
def showGridOf (st : ElementStyle) : Bool := st.chartShowGrid != some false
def showLabelsOf (st : ElementStyle) : Bool := st.chartShowDataLabels.getD false
def showTotalOf (st : ElementStyle) : Bool := st.chartShowTotal.getD false
def chartKindOf (st : ElementStyle) : ChartKind := st.chartType.getD .bar

/-- Models `element.style.chartCategoryKey || 'label'`. -/
def categoryKeyOf (st : ElementStyle) : String :=
  strOr (st.chartCategoryKey.getD "") "label"

def containerWidth (st : ElementStyle) : ℚ := qOr st.width 400
def containerHeight (st : ElementStyle) : ℚ := qOr st.height 300

def legendHorizontal (st : ElementStyle) : Bool :=
  legendPosOf st = .left || legendPosOf st = .right

/-- Chart area width: container minus a 100px side legend if shown. -/
def chartAreaWidth (st : ElementStyle) : ℚ :=
  if showLegendOf st && legendHorizontal st then containerWidth st - 100
  else containerWidth st

/-- Chart area height: container minus a 40px top/bottom legend if shown,
minus a 24px title band when `content` is truthy. -/
def chartAreaHeight (st : ElementStyle) (content : Option String) : ℚ :=
  (if showLegendOf st && !legendHorizontal st then containerHeight st - 40
   else containerHeight st) - (if optTruthy content then 24 else 0)

/-- Models `Math.max(0, chartAreaWidth - padding.left - padding.right)` (30 + 10). -/
def drawWidth (st : ElementStyle) : ℚ := max 0 (chartAreaWidth st - 30 - 10)

/-- Models `Math.max(0, chartAreaHeight - padding.top - padding.bottom)` (20 + 25). -/
def drawHeight (st : ElementStyle) (content : Option String) : ℚ :=
  max 0 (chartAreaHeight st content - 20 - 25)

/-- Models `drawWidth / (data.length || 1)` — guarded against an empty data array. -/
def barGroupWidth (st : ElementStyle) (dataLen : ℕ) : JsNum :=
  jsDiv (.num (drawWidth st)) (.num (if dataLen = 0 then 1 else (dataLen : ℚ)))

/-- Models `(barGroupWidth * 0.7) / series.length` — NOT guarded against an empty
series array. -/
def barWidth (groupW : JsNum) (seriesLen : ℕ) : JsNum :=
  jsDiv (jsMul groupW (.num (7/10))) (.num (seriesLen : ℚ))

/-! ## Chart geometry -/

/-- Models `(val / (maxValue || 1)) * drawHeight` (line 343). -/
def barH (val maxV : JsNum) (H : ℚ) : JsNum :=
  jsMul (jsDiv val (jsOrN maxV (.num 1))) (.num H)

/-- The rendered rect height `Math.max(0, barH)` (line 352). -/
def rectHeight (val maxV : JsNum) (H : ℚ) : JsNum :=
  jsMax (.num 0) (barH val maxV H)

structure BarRect where
  x : JsNum
  y : JsNum
  w : JsNum
  h : JsNum
  labelVal : Option JsNum
deriving Repr, DecidableEq, Inhabited

/-- Bar rectangles: one per row × series, grouped with a 15% inset. -/
def barRects (data : List Value) (seriesL : List ChartSeries) (maxV : JsNum)
    (H : ℚ) (groupW bw : JsNum) (showLabels : Bool) : List BarRect :=
  data.enum.flatMap (fun p =>
    let xGroup := jsAdd (jsMul (.num p.1) groupW) (jsMul groupW (.num (15/100)))
    seriesL.enum.map (fun q =>
      let val := resolvedNum q.2.dataKey p.2
      let bh := barH val maxV H
      { x := jsAdd xGroup (jsMul (.num q.1) bw)
        y := jsSub (.num H) bh
        w := bw
        h := jsMax (.num 0) bh
        labelVal := if showLabels then some val else none }))

/-- Line chart: per series, the polyline points `(slot center, scaled y)`. -/
def linePoints (data : List Value) (seriesL : List ChartSeries) (maxV : JsNum)
    (H : ℚ) (groupW : JsNum) : List (List (JsNum × JsNum)) :=
  seriesL.map (fun s =>
    data.enum.map (fun p =>
      (jsAdd (jsMul (.num p.1) groupW) (jsDiv groupW (.num 2)),
       jsSub (.num H) (jsMul (jsDiv (resolvedNum s.dataKey p.2) (jsOrN maxV (.num 1))) (.num H)))))

def CHART_PALETTE : List String :=
  ["#6366f1", "#a855f7", "#ec4899", "#f43f5e", "#f97316",
   "#eab308", "#22c55e", "#06b6d4", "#3b82f6", "#8b5cf6"]

/-- Models `CHART_PALETTE[i % CHART_PALETTE.length]`. -/
def paletteAt (i : ℕ) : String := CHART_PALETTE.getD (i % 10) ""

/-- Models `series[0]?.dataKey || ''`. -/
def primaryKey (seriesL : List ChartSeries) : String :=
  match seriesL with
  | [] => ""
  | s :: _ => strOr s.dataKey ""

def pieVals (dk : String) (data : List Value) : List JsNum :=
  data.map (resolvedNum dk)

/-- Models `data.reduce((acc, row) => acc + Number(resolveData(...) || 0), 0)`. -/
def pieTotal (dk : String) (data : List Value) : JsNum :=
  (pieVals dk data).foldl jsAdd (.num 0)

/-- One pie wedge: its start and extent as *fractions of the full turn*
(the source multiplies these by `2π` when emitting the arc path). -/
structure PieSlice where
  startFrac : JsNum
  frac : JsNum
  color : String
deriving Repr, DecidableEq, Inhabited

/-- The wedge loop: rows with `val <= 0` are skipped and consume no angle;
kept rows advance `startAngle` by `val / total` of the full turn.  The
palette index is the *row* index, counting skipped rows. -/
def pieWalk (dk : String) (total : JsNum) :
    List Value → ℕ → JsNum → List PieSlice
  | [], _, _ => []
  | row :: rest, i, start =>
      let val := resolvedNum dk row
      if jsLe val (.num 0) then pieWalk dk total rest (i + 1) start
      else { startFrac := start, frac := jsDiv val total, color := paletteAt i }
        :: pieWalk dk total rest (i + 1) (jsAdd start (jsDiv val total))

def pieSlices (dk : String) (data : List Value) : List PieSlice :=
  pieWalk dk (pieTotal dk data) data 0 (.num 0)

inductive PieResult where
  | noData : PieResult
  | wedges (slices : List PieSlice) (donutTotal : Option JsNum) : PieResult
deriving Repr, DecidableEq, Inhabited

/-- The pie render: `total === 0` gives the "No Data" label and no wedge;
otherwise the wedge list, plus the donut-hole total when `chartShowTotal`. -/
def pieResultOf (dk : String) (data : List Value) (showTotal : Bool) : PieResult :=
  if pieTotal dk data = .num 0 then .noData
  else .wedges (pieSlices dk data)
    (if showTotal then some (pieTotal dk data) else none)

/-- The drawn angle of the wedges, in radians: each slice spans
`frac × 2π`. -/
noncomputable def pieAngleSum (slices : List PieSlice) : ℝ :=
  (slices.map (fun s => s.frac.toR * (2 * Real.pi))).sum

/-- X-axis labels: `String(resolveData(categoryKey, row) || '').substring(0, 10)`. -/
def xLabelsOf (ck : String) (data : List Value) : List String :=
  data.map (fun row => (jsToString (jsOr (resolveData ck row) (.str ""))).take 10)

/-- Grid tick labels: `Math.round(maxValue * tick)` at 0/25/50/75/100%. -/
def ticksOf (maxV : JsNum) : List JsNum :=
  [0, 1/4, 1/2, 3/4, 1].map (fun t => jsRound (jsMul maxV (.num t)))

structure LegendItem where
  label : String
  color : String
deriving Repr, DecidableEq, Inhabited

/-- Legend entries: per-row (palette colors, category labels) for pie,
per-series (`label || dataKey`) otherwise. -/
def legendItemsOf (kind : ChartKind) (data : List Value)
    (seriesL : List ChartSeries) (ck : String) : List LegendItem :=
  if kind = .pie then
    data.enum.map (fun p =>
      { label := jsToString (jsOr (resolveData ck p.2) (.str ("Item " ++ toString (p.1 + 1))))
        color := paletteAt p.1 })
  else
    seriesL.map (fun s => { label := strOr s.label s.dataKey, color := s.color })

/-! ## The chart renderer -/

/-- Everything data-dependent that `renderChart` emits for a successfully
resolved (or synthesized) data set. -/
structure ChartView where
  kind : ChartKind
  data : List Value
  seriesUsed : List ChartSeries
  categoryKey : String
  maxV : JsNum
  totalV : JsNum
  cw : ℚ
  ch : ℚ
  caw : ℚ
  cah : ℚ
  dw : ℚ
  dh : ℚ
  groupW : JsNum
  bw : JsNum
  showLegend : Bool
  legendPos : LegendPos
  title : Option String
  showTotalBadge : Bool
  bars : List BarRect
  lines : List (List (JsNum × JsNum))
  pie : Option PieResult
  xLabels : List String
  ticks : List JsNum
  legendItems : List LegendItem

inductive ChartRender where
  | dataError (key : String) : ChartRender
  | view (v : ChartView) : ChartRender

/-- Models `renderChart` over the fields it reads from the element. -/
noncomputable def renderChartAux (st : ElementStyle) (content key : Option String)
    (seriesOpt : Option (List ChartSeries)) (previewMode : Bool) (ctx : Value) :
    ChartRender :=
  let kind := chartKindOf st
  let seriesL := seriesOf seriesOpt
  let ck := categoryKeyOf st
  match chartInput key ck seriesL previewMode ctx with
  | .dataError => .dataError (key.getD "")
  | .rows data =>
      let vals := allValues data seriesL
      let maxV := maxValue vals
      let H := drawHeight st content
      let groupW := barGroupWidth st data.length
      let bw := barWidth groupW seriesL.length
      .view {
        kind := kind
        data := data
        seriesUsed := seriesL
        categoryKey := ck
        maxV := maxV
        totalV := totalValue data seriesL
        cw := containerWidth st
        ch := containerHeight st
        caw := chartAreaWidth st
        cah := chartAreaHeight st content
        dw := drawWidth st
        dh := H
        groupW := groupW
        bw := bw
        showLegend := showLegendOf st
        legendPos := legendPosOf st
        title := if optTruthy content then content else none
        showTotalBadge := showTotalOf st && kind != .pie
        bars := if kind = .bar then
            barRects data seriesL maxV H groupW bw (showLabelsOf st) else []
        lines := if kind = .line then
            linePoints data seriesL maxV H groupW else []
        pie := if kind = .pie then
            some (pieResultOf (primaryKey seriesL) data (showTotalOf st)) else none
        xLabels := if kind != .pie then xLabelsOf ck data else []
        ticks := if showGridOf st && kind != .pie then ticksOf maxV else []
        legendItems := legendItemsOf kind data seriesL ck }

/-- Models `renderChart` of an element (reads only `style`, `content`, `key`,
`series`). -/
noncomputable def renderChart (el : ReportElement) (previewMode : Bool)
    (ctx : Value) : ChartRender :=
  renderChartAux el.style el.content el.key el.series previewMode ctx

/-- Projection used to state facts about a successful render. -/
def ChartRender.bwOf : ChartRender → Option JsNum
  | .dataError _ => none
  | .view v => some v.bw

def ChartRender.groupWOf : ChartRender → Option JsNum
  | .dataError _ => none
  | .view v => some v.groupW

/-! ## The table renderer -/

/-- The `cellContent` value computed per cell (line 540-547): the bound
branch resolves the column's accessor key against the row; the unbound
branch builds the mock JSX element
`<span className="opacity-50 text-xs">[accessorKey]</span>` — a React
element *object* whose child text is the bracketed marker. -/
inductive TableCell where
  /-- The mock JSX span; `marker` is the bracketed text it contains. -/
  | mockSpan (marker : String) : TableCell
  /-- A bound cell's resolved data value. -/
  | dataValue (v : Value) : TableCell
deriving Inhabited

/-- What the `<td>` displays (line 551):
`cellContent !== undefined ? String(cellContent) : ''`.  A React element is
a plain object with no custom `toString`, so `String(<span>…</span>)` is
the literal text `"[object Object]"` — the marker inside the span never
reaches the output. -/
def TableCell.rendered : TableCell → String
  | .mockSpan _ => "[object Object]"
  | .dataValue .undefined => ""
  | .dataValue v => jsToString v

/-- The default column pair used when `element.columns` is `undefined`
(an explicit empty array is truthy and kept). -/
def defaultColumns : List TableColumn :=
  [{ id := "1", header := "Col 1", accessorKey := "col1" },
   { id := "2", header := "Col 2", accessorKey := "col2" }]

def columnsOf (columnsOpt : Option (List TableColumn)) : List TableColumn :=
  match columnsOpt with
  | none => defaultColumns
  | some l => l

/-- Table data resolution: bound array in preview mode with a truthy key,
else the three mock rows `[1, 2, 3]`. -/
def tableData (key : Option String) (previewMode : Bool) (ctx : Value) :
    List Value × Bool :=
  if previewMode && optTruthy key then
    match resolveData (key.getD "") ctx with
    | .arr l => (l, true)
    | _ => ([.num 1, .num 2, .num 3], false)
  else ([.num 1, .num 2, .num 3], false)

/-- One cell's `cellContent` (line 540-547). -/
def tableCell (bound : Bool) (col : TableColumn) (row : Value) : TableCell :=
  if bound then .dataValue (resolveData col.accessorKey row)
  else .mockSpan ("[" ++ col.accessorKey ++ "]")

structure TableRow where
  bg : String
  cells : List TableCell
deriving Inhabited

structure TableView where
  columns : List TableColumn
  headerBg : String
  headerColor : String
  rowBg : String
  stripeColor : String
  gridColor : String
  showGrid : Bool
  keyBadge : Option String
  body : List TableRow

/-- Models `renderTable` over the fields it reads from the element. -/
def renderTableAux (st : ElementStyle) (key : Option String)
    (columnsOpt : Option (List TableColumn)) (previewMode : Bool) (ctx : Value) :
    TableView :=
  let headerBg := strOr (st.tableHeaderBg.getD "") "#f4f4f5"
  let headerColor := strOr (st.tableHeaderColor.getD "") "#18181b"
  let rowBg := strOr (st.tableRowBg.getD "") "transparent"
  let stripeColor := strOr (st.tableStripeColor.getD "") "#f8fafc"
  let cols := columnsOf columnsOpt
  let td := tableData key previewMode ctx
  { columns := cols
    headerBg := headerBg
    headerColor := headerColor
    rowBg := rowBg
    stripeColor := stripeColor
    gridColor := strOr (st.borderColor.getD "") "#e4e4e7"
    showGrid := st.tableShowGrid != some false
    keyBadge := if optTruthy key && !previewMode then key else none
    body := td.1.enum.map (fun p =>
      { bg := if st.tableStriped.getD false && p.1 % 2 = 1 then stripeColor
              else rowBg
        cells := cols.map (fun col => tableCell td.2 col p.2) }) }

def renderTable (el : ReportElement) (previewMode : Bool) (ctx : Value) :
    TableView :=
  renderTableAux el.style el.key el.columns previewMode ctx

/-! ## Persisted JSON element shape (export / import) -/

structure PersistedPosition where
  x : ℚ
  y : ℚ

structure PersistedProperties where
  content : Option String
  key : Option String
  style : ElementStyle
  columns : Option (List TableColumn)
  series : Option (List ChartSeries)

/-- Models `{ id, type, position: {x, y}, properties: {content, key, style,
columns, series} }` — the shape built by `handleExport`. -/
structure PersistedElement where
  id : String
  type : ElementType
  position : PersistedPosition
  properties : PersistedProperties

def serializeElement (el : ReportElement) : PersistedElement :=
  { id := el.id
    type := el.type
    position := { x := el.x, y := el.y }
    properties :=
      { content := el.content
        key := el.key
        style := el.style
        columns := el.columns
        series := el.series } }

def typeName : ElementType → String
  | .text => "text" | .table => "table" | .placeholder => "placeholder"
  | .header => "header" | .footer => "footer" | .image => "image"
  | .line => "line" | .rectangle => "rectangle" | .barcode => "barcode"
  | .qrcode => "qrcode" | .chart => "chart" | .list => "list"

/-- Models `el.type.charAt(0).toUpperCase() + el.type.slice(1)`. -/
def capFirst (s : String) : String :=
  match s.data with
  | [] => ""
  | c :: rest => String.mk (c.toUpper :: rest)

/-- The display label recomputed by `handleFileChange`. -/
def labelFor (t : ElementType) : String :=
  capFirst (typeName t) ++ (if t = .placeholder then " Variable" else " Block")

/-- Models `el.position?.x || 0`. -/
def qOrZero (q : ℚ) : ℚ := if q = 0 then 0 else q

/-- The element built back by `handleFileChange` (it never sets `src`, and
`properties.style` is always the exported object, so `|| {}` keeps it). -/
def deserializeElement (p : PersistedElement) : ReportElement :=
  { id := p.id
    type := p.type
    x := qOrZero p.position.x
    y := qOrZero p.position.y
    label := labelFor p.type
    content := p.properties.content
    key := p.properties.key
    src := none
    style := p.properties.style
    columns := p.properties.columns
    series := p.properties.series }

/-! ## Claim theorems -/

/-- C6: the dotted-path resolver is total — for every `(path, root)` pair
the exception-aware evaluation returns `ok` of the resolved value (never a
thrown `TypeError`), and a nullish (`undefined`/`null`) intermediate
short-circuits the remaining segments to `undefined`. -/
theorem resolve_total :
    (∀ (path : String) (root : Value),
      resolveDataE path root = .ok (resolveData path root)) ∧
    (∀ (segs : List String) (v : Value),
      (v = .undefined ∨ v = .null) → segs ≠ [] → resolveSegs segs v = .undefined) := by
  refine ⟨fun path root => resolveSegsE_ok _ _, fun segs v hv hs => ?_⟩
  apply resolveSegs_falsy _ hs
  rcases hv with h | h <;> subst h <;> rfl

theorem resolve_total_witness :
    resolveDataE "user.address.city" (.obj [("user", .null)])
      = .ok (resolveData "user.address.city" (.obj [("user", .null)])) ∧
    resolveSegs ["city"] .null = .undefined :=
  ⟨resolve_total.1 _ _, resolve_total.2 ["city"] .null (Or.inr rfl) (by decide)⟩

/-- C10: the resolver's guard is JS truthiness, so *any* falsy intermediate
(`0`, `""`, `false`, not only nullish values) short-circuits the rest of
the path to `undefined` — even when the next property exists on that value,
as `{a: ""}` resolved at `"a.length"` shows (`"".length` is `0`). -/
theorem resolve_falsy_shortcircuit :
    (∀ (segs : List String) (v : Value),
      jsTruthy v = false → segs ≠ [] → resolveSegs segs v = .undefined) ∧
    resolveData "a.length" (.obj [("a", .str "")]) = .undefined ∧
    getPropPure (.str "") "length" = .num 0 := by
  refine ⟨fun segs v hv hs => resolveSegs_falsy hv hs, ?_, rfl⟩
  rfl

theorem resolve_falsy_shortcircuit_witness :
    jsTruthy (Value.num 0) = false ∧
    resolveSegs ["x"] (Value.num 0) = .undefined :=
  ⟨by decide, resolve_falsy_shortcircuit.1 ["x"] (Value.num 0) (by decide) (by decide)⟩

/-- C9: serializing an element to the persisted JSON shape and
deserializing it back preserves `style`, `columns` and `series`
field-for-field, and the chart and table renders of the round-tripped
element are identical to the original's. -/
theorem roundtrip_render_identical :
    ∀ (el : ReportElement) (previewMode : Bool) (ctx : Value),
    (deserializeElement (serializeElement el)).style = el.style ∧
    (deserializeElement (serializeElement el)).columns = el.columns ∧
    (deserializeElement (serializeElement el)).series = el.series ∧
    renderChart (deserializeElement (serializeElement el)) previewMode ctx
      = renderChart el previewMode ctx ∧
    renderTable (deserializeElement (serializeElement el)) previewMode ctx
      = renderTable el previewMode ctx := by
  intro el pm ctx
  cases el
  exact ⟨rfl, rfl, rfl, rfl, rfl⟩

lemma tableData_unbound {key : Option String} {pm : Bool} {ctx : Value}
    (h : pm = false ∨ optTruthy key = false ∨
         isArray (resolveData (key.getD "") ctx) = false) :
    tableData key pm ctx = ([.num 1, .num 2, .num 3], false) := by
  by_cases hc : (pm && optTruthy key) = true
  · simp only [Bool.and_eq_true] at hc
    rcases h with h | h | h
    · rw [h] at hc; exact absurd hc.1 (by simp)
    · rw [h] at hc; exact absurd hc.2 (by simp)
    · unfold tableData
      rw [if_pos (by simp [hc.1, hc.2])]
      cases hres : resolveData (key.getD "") ctx <;> simp_all [isArray]
  · unfold tableData
    rw [if_neg (by simp_all)]

/-- C7 (the code contradicts the claim): an unbound table does render
exactly 3 body rows, and the `cellContent` the code computes per cell is
indeed the mock JSX span whose child text is the bracketed accessor-key
marker of its column — but the `<td>` then coerces that React element with
`String(...)`, so every unbound cell actually displays the constant text
`"[object Object]"`, never the marker. -/
lemma map_rendered_mock (cols : List TableColumn) (v : Value) :
    (cols.map (fun col => tableCell false col v)).map TableCell.rendered
      = cols.map (fun _ => "[object Object]") := by
  induction cols with
  | nil => rfl
  | cons c cols ih =>
      simp only [List.map_cons, ih]
      rfl

theorem table_unbound_object_object :
    ∀ (el : ReportElement) (previewMode : Bool) (ctx : Value),
    (previewMode = false ∨ optTruthy el.key = false ∨
     isArray (resolveData (el.key.getD "") ctx) = false) →
    (renderTable el previewMode ctx).body.length = 3 ∧
    ∀ row ∈ (renderTable el previewMode ctx).body,
      row.cells = (columnsOf el.columns).map
        (fun c => TableCell.mockSpan ("[" ++ c.accessorKey ++ "]")) ∧
      row.cells.map TableCell.rendered
        = (columnsOf el.columns).map (fun _ => "[object Object]") := by
  intro el pm ctx h
  have htd := tableData_unbound h
  unfold renderTable renderTableAux
  rw [htd]
  refine ⟨rfl, ?_⟩
  intro row hrow
  simp only [List.enum, List.enumFrom, List.map, List.mem_cons, List.not_mem_nil, or_false]
    at hrow
  rcases hrow with h1 | h1 | h1 <;> subst h1 <;>
    exact ⟨by simp [tableCell], map_rendered_mock _ _⟩

theorem table_unbound_object_object_witness :
    (renderTable
        { id := "t1", type := .table, x := 0, y := 0, label := "Table Block",
          columns := some [{ id := "1", header := "Name", accessorKey := "name" }] }
        false (.obj [])).body.length = 3 ∧
    ∀ row ∈ (renderTable
        { id := "t1", type := .table, x := 0, y := 0, label := "Table Block",
          columns := some [{ id := "1", header := "Name", accessorKey := "name" }] }
        false (.obj [])).body,
      row.cells = (columnsOf (some [{ id := "1", header := "Name", accessorKey := "name" }])).map
        (fun c => TableCell.mockSpan ("[" ++ c.accessorKey ++ "]")) ∧
      row.cells.map TableCell.rendered
        = (columnsOf (some [{ id := "1", header := "Name", accessorKey := "name" }])).map
          (fun _ => "[object Object]") :=
  table_unbound_object_object _ false _ (Or.inl rfl)

/-- C5: in preview mode, a chart whose (truthy) key resolves to a non-array
value — including `undefined` — renders the "Data Error" panel naming the
key instead of any chart geometry, and the resolution itself never throws. -/
theorem chart_data_error_panel :
    ∀ (el : ReportElement) (ctx : Value) (k : String),
    el.key = some k → k ≠ "" →
    isArray (resolveData k ctx) = false →
    renderChart el true ctx = .dataError k ∧
    resolveDataE k ctx = .ok (resolveData k ctx) := by
  intro el ctx k hk hne hna
  refine ⟨?_, resolveSegsE_ok _ _⟩
  have herr : chartInput (some k) (categoryKeyOf el.style) (seriesOf el.series) true ctx
      = .dataError := by
    unfold chartInput
    rw [if_pos]
    · simp only [Option.getD_some]
      cases hres : resolveData k ctx <;> simp_all [isArray]
    · simp [optTruthy, hne]
  simp only [renderChart, renderChartAux, herr, hk, Option.getD_some]

theorem chart_data_error_panel_witness :
    renderChart
        { id := "c1", type := .chart, x := 0, y := 0, label := "Chart Block",
          key := some "nonexistent" }
        true (.obj []) = .dataError "nonexistent" ∧
    resolveDataE "nonexistent" (.obj [])
      = .ok (resolveData "nonexistent" (.obj [])) :=
  chart_data_error_panel _ _ _ rfl (by decide) (by decide)

/-- C4 (amended): the division by the row count is guarded (`|| 1`), so the
bar-group width is always finite; the division by the series count is NOT
guarded, but the series list defaults to a singleton when `element.series`
is `undefined`, so the bar width is finite whenever the series list is
nonempty.  (An explicitly empty series array divides by zero — see the
counterexample.) -/
theorem layout_division_guards :
    ∀ (st : ElementStyle) (dataLen : ℕ) (seriesL : List ChartSeries),
    (barGroupWidth st dataLen).isFinite = true ∧
    (seriesL ≠ [] →
      (barWidth (barGroupWidth st dataLen) seriesL.length).isFinite = true) := by
  intro st dataLen seriesL
  have hdiv : ∀ (a b : ℚ), b ≠ 0 → (jsDiv (.num a) (.num b)).isFinite = true := by
    intro a b hb
    simp [jsDiv, hb, JsNum.isFinite]
  have hden : (if dataLen = 0 then (1 : ℚ) else (dataLen : ℚ)) ≠ 0 := by
    by_cases h : dataLen = 0 <;> simp [h]
  constructor
  · exact hdiv _ _ hden
  · intro hs
    unfold barWidth barGroupWidth
    rw [show jsDiv (JsNum.num (drawWidth st))
          (.num (if dataLen = 0 then (1:ℚ) else (dataLen : ℚ)))
        = .num (drawWidth st / (if dataLen = 0 then (1:ℚ) else (dataLen : ℚ))) by
      simp [jsDiv, hden]]
    rw [show jsMul (JsNum.num (drawWidth st / (if dataLen = 0 then (1:ℚ) else (dataLen : ℚ))))
          (.num (7/10))
        = .num (drawWidth st / (if dataLen = 0 then (1:ℚ) else (dataLen : ℚ)) * (7/10)) from rfl]
    apply hdiv
    exact Nat.cast_ne_zero.mpr (fun h0 => hs (List.length_eq_zero.mp h0))

theorem layout_division_guards_witness :
    (barGroupWidth {} 0).isFinite = true ∧
    ([defaultSeries] : List ChartSeries) ≠ [] ∧
    (barWidth (barGroupWidth {} 0) [defaultSeries].length).isFinite = true :=
  ⟨(layout_division_guards {} 0 [defaultSeries]).1, by decide,
   (layout_division_guards {} 0 [defaultSeries]).2 (by decide)⟩

/-- C4 counterexample: an element with an explicitly empty series array
(truthy in JS, so the `|| [default]` fallback does not apply) renders a bar
width of `+Infinity`: `(barGroupWidth * 0.7) / series.length` divides by
zero.  The claim that every division guards against a zero series count and
that the bar width is always finite is false. -/
theorem layout_division_counterexample :
    (renderChart
        { id := "c4", type := .chart, x := 0, y := 0, label := "Chart Block",
          key := some "rows", series := some [] }
        true
        (.obj [("rows", .arr [.obj [], .obj [], .obj [], .obj [], .obj []])])).bwOf
      = some JsNum.posInf := by
  have h1 : chartInput (some "rows") (categoryKeyOf ({} : ElementStyle))
      (seriesOf (some [])) true
      (.obj [("rows", .arr [.obj [], .obj [], .obj [], .obj [], .obj []])])
      = .rows [.obj [], .obj [], .obj [], .obj [], .obj []] := rfl
  have hdw : drawWidth ({} : ElementStyle) = 360 := by
    simp [drawWidth, chartAreaWidth, containerWidth, qOr, showLegendOf, legendPosOf,
      legendHorizontal]
    rw [max_eq_right (by norm_num : (0:ℚ) ≤ 400 - 30 - 10)]
    norm_num
  simp only [renderChart, renderChartAux, h1, ChartRender.bwOf, Option.some.injEq]
  simp only [seriesOf, List.length_nil, List.length_cons, barWidth, barGroupWidth, hdw,
    jsDiv, jsMul]
  norm_num

lemma jsMaxList_map_num (qs : List ℚ) (c : ℚ) :
    (qs.map JsNum.num).foldl jsMax (JsNum.num c) = .num (qs.foldl max c) := by
  induction qs generalizing c with
  | nil => rfl
  | cons q qs ih => simpa [jsMax] using ih (max c q)

lemma foldl_max_comm (l : List ℚ) (a b : ℚ) :
    l.foldl max (max a b) = max a (l.foldl max b) := by
  induction l generalizing b with
  | nil => rfl
  | cons c l ih => rw [List.foldl_cons, List.foldl_cons, max_assoc, ih]

/-- C3 (amended): when every resolved value (after the `|| 0` fallback)
coerces to an actual number, the y-domain maximum is
`max(values, floor 10) × 1.1`.  (A truthy non-numeric value coerces to
`NaN`, which `Math.max` propagates — see the counterexample; the original
claim's "NaN is treated as 0" does not hold at this site.) -/
theorem domain_max_formula :
    ∀ (vals : List JsNum) (qs : List ℚ), vals = qs.map JsNum.num →
    maxValue vals = .num ((qs.foldl max 10) * (11/10)) := by
  intro vals qs h
  subst h
  unfold maxValue jsMaxList
  rw [List.foldl_append]
  cases qs with
  | nil => rfl
  | cons q qs' =>
      simp only [List.map_cons, List.foldl_cons, List.foldl_nil]
      rw [show jsMax JsNum.negInf (.num q) = .num q from rfl,
        jsMaxList_map_num,
        show ∀ a b : ℚ, jsMax (JsNum.num a) (.num b) = .num (max a b) from fun a b => rfl,
        show ∀ a b : ℚ, jsMul (JsNum.num a) (.num b) = .num (a * b) from fun a b => rfl,
        foldl_max_comm, max_comm (List.foldl max q qs') 10]

theorem domain_max_formula_witness :
    maxValue [JsNum.num 50] = .num (([50] : List ℚ).foldl max 10 * (11/10)) :=
  domain_max_formula [JsNum.num 50] [50] rfl

/-- C3 counterexample: a row whose series value is the (truthy,
non-numeric) string `"x"` coerces to `NaN`; `Math.max(NaN, 10)` is `NaN`
and so is the domain maximum — not the `max(0, 10) × 1.1 = 11` that the
claim's "non-numeric coerces to 0 / NaN treated as 0" reading predicts. -/
theorem domain_max_counterexample :
    maxValue (allValues [.obj [("v", .str "x")]]
      [{ id := "1", dataKey := "v", label := "V", color := "#000" }]) = JsNum.nan ∧
    JsNum.nan ≠ JsNum.num 11 :=
  ⟨rfl, by decide⟩

lemma maxValue_num_ge {vals : List JsNum} {m : ℚ} (h : maxValue vals = .num m) :
    11 ≤ m := by
  unfold maxValue jsMaxList at h
  rw [List.foldl_append] at h
  cases hX : vals.foldl jsMax JsNum.negInf with
  | nan =>
      rw [hX] at h
      simp only [List.foldl, jsMax, jsMul] at h
      exact (JsNum.noConfusion h)
  | posInf =>
      rw [hX] at h
      simp only [List.foldl, jsMax, jsMul] at h
      norm_num at h
      exact (JsNum.noConfusion h)
  | negInf =>
      rw [hX] at h
      simp only [List.foldl, jsMax, jsMul, JsNum.num.injEq] at h
      linarith [h]
  | num a =>
      rw [hX] at h
      simp only [List.foldl, jsMax, jsMul, JsNum.num.injEq] at h
      have h10 : (10 : ℚ) ≤ max a 10 := le_max_right _ _
      nlinarith [h10]

/-- C8: bar heights are monotone in the resolved value — for the computed
domain maximum (always ≥ 11 when numeric) and the computed draw height
(clamped nonnegative), `v₁ ≤ v₂` implies the rendered rect height of `v₁`
is at most that of `v₂`. -/
theorem bar_height_monotone :
    ∀ (vals : List JsNum) (m : ℚ) (st : ElementStyle) (content : Option String)
      (v₁ v₂ : ℚ),
    maxValue vals = .num m → v₁ ≤ v₂ →
    jsLe (rectHeight (.num v₁) (maxValue vals) (drawHeight st content))
         (rectHeight (.num v₂) (maxValue vals) (drawHeight st content)) = true := by
  intro vals m st content v₁ v₂ hm hv
  have h11 : (11 : ℚ) ≤ m := maxValue_num_ge hm
  have hmpos : (0 : ℚ) < m := by linarith
  have hm0 : m ≠ 0 := ne_of_gt hmpos
  have hH0 : 0 ≤ drawHeight st content := le_max_left _ _
  rw [hm]
  have hr : ∀ v : ℚ, rectHeight (.num v) (.num m) (drawHeight st content)
      = .num (max 0 (v / m * drawHeight st content)) := by
    intro v
    unfold rectHeight barH jsOrN
    rw [if_pos (by simp [jsTruthyN, hm0])]
    simp [jsDiv, hm0, jsMul, jsMax]
  rw [hr, hr]
  simp only [jsLe, decide_eq_true_eq]
  refine max_le_max le_rfl (mul_le_mul_of_nonneg_right ?_ hH0)
  exact (div_le_div_iff_of_pos_right hmpos).mpr hv

theorem bar_height_monotone_witness :
    maxValue [JsNum.num 100] = .num 110 ∧ (5 : ℚ) ≤ 7 ∧
    jsLe (rectHeight (.num 5) (maxValue [JsNum.num 100]) (drawHeight {} none))
         (rectHeight (.num 7) (maxValue [JsNum.num 100]) (drawHeight {} none)) = true := by
  have hmax : maxValue [JsNum.num 100] = .num 110 := by
    unfold maxValue jsMaxList
    simp only [List.foldl, jsMax, jsMul, List.cons_append, List.nil_append, JsNum.num.injEq]
    rw [max_eq_left (by norm_num : (10:ℚ) ≤ 100)]
    norm_num
  exact ⟨hmax, by norm_num,
    bar_height_monotone [JsNum.num 100] 110 {} none 5 7 hmax (by norm_num)⟩

lemma foldl_jsAdd_num (qs : List ℚ) (c : ℚ) :
    (qs.map JsNum.num).foldl jsAdd (JsNum.num c) = .num (c + qs.sum) := by
  induction qs generalizing c with
  | nil => simp
  | cons q qs ih =>
      rw [List.map_cons, List.foldl_cons,
        show jsAdd (JsNum.num c) (.num q) = .num (c + q) from rfl, ih,
        List.sum_cons]
      congr 1
      ring

lemma pieTotal_num {dk : String} {data : List Value} {qs : List ℚ}
    (h : data.map (resolvedNum dk) = qs.map JsNum.num) :
    pieTotal dk data = .num qs.sum := by
  unfold pieTotal pieVals
  rw [h, foldl_jsAdd_num, zero_add]

lemma pieWalk_fracs {dk : String} {t : ℚ} (ht : t ≠ 0) :
    ∀ (rows : List Value) (qs : List ℚ) (i : ℕ) (start : JsNum),
    rows.map (resolvedNum dk) = qs.map JsNum.num →
    (pieWalk dk (.num t) rows i start).map PieSlice.frac
      = (qs.filter (fun q => 0 < q)).map (fun q => JsNum.num (q / t)) := by
  intro rows
  induction rows with
  | nil =>
      intro qs i start h
      cases qs with
      | nil => simp [pieWalk]
      | cons q qs' => simp at h
  | cons r rest ih =>
      intro qs i start h
      cases qs with
      | nil => simp at h
      | cons q qs' =>
          simp only [List.map_cons, List.cons.injEq] at h
          obtain ⟨h1, h2⟩ := h
          simp only [pieWalk, h1]
          by_cases hq : q ≤ 0
          · have hle : jsLe (JsNum.num q) (.num 0) = true := by
              simp [jsLe, hq]
            rw [if_pos hle, List.filter_cons_of_neg (by simpa using hq)]
            exact ih qs' (i + 1) start h2
          · have hle : jsLe (JsNum.num q) (.num 0) = false := by
              simp [jsLe, hq]
            rw [if_neg (by simp [hle]), List.filter_cons_of_pos (by simpa using not_le.mp hq)]
            rw [List.map_cons, List.map_cons,
              show jsDiv (JsNum.num q) (.num t) = .num (q / t) by simp [jsDiv, ht]]
            simp only [List.cons.injEq, true_and]
            exact ih qs' (i + 1) _ h2

lemma filter_pos_sum (qs : List ℚ) (h : ∀ q ∈ qs, 0 ≤ q) :
    (qs.filter (fun q => 0 < q)).sum = qs.sum := by
  induction qs with
  | nil => rfl
  | cons q qs ih =>
      have hq : 0 ≤ q := h q (List.mem_cons_self _ _)
      have hrest : ∀ x ∈ qs, 0 ≤ x := fun x hx => h x (List.mem_cons_of_mem _ hx)
      by_cases h0 : 0 < q
      · rw [List.filter_cons_of_pos (by simpa using h0), List.sum_cons, List.sum_cons,
          ih hrest]
      · have : q = 0 := le_antisymm (not_lt.mp h0) hq
        rw [List.filter_cons_of_neg (by simpa using h0), List.sum_cons, ih hrest, this,
          zero_add]

lemma pieAngleSum_fracs (l : List PieSlice) :
    pieAngleSum l = ((l.map PieSlice.frac).map (fun f => f.toR * (2 * Real.pi))).sum := by
  unfold pieAngleSum
  rw [List.map_map]
  rfl

lemma map_frac_sum (qs : List ℚ) (t : ℚ) :
    ((qs.map (fun q => JsNum.num (q / t))).map (fun f => f.toR * (2 * Real.pi))).sum
      = ((qs.sum / t : ℚ) : ℝ) * (2 * Real.pi) := by
  induction qs with
  | nil => simp
  | cons q qs ih =>
      rw [List.map_cons, List.map_cons, List.sum_cons,
        show (JsNum.num (q / t)).toR = ((q / t : ℚ) : ℝ) from rfl, ih, List.sum_cons]
      push_cast
      ring

/-- C2 (amended): for rows whose resolved first-series values are all
*nonnegative* numbers with positive sum, the pie renders its wedge list and
the wedge angles (`frac × 2π`) sum to exactly `2π`; a zero total renders
the "No Data" label and no wedge.  (With a negative value the skipped-row
rule breaks the identity — the positive slices then sum to more than `2π`;
see the counterexample.) -/
theorem pie_slice_angles :
    (∀ (dk : String) (data : List Value) (showT : Bool) (qs : List ℚ),
      data.map (resolvedNum dk) = qs.map JsNum.num →
      (∀ q ∈ qs, 0 ≤ q) → 0 < qs.sum →
      pieResultOf dk data showT
        = .wedges (pieSlices dk data)
            (if showT then some (pieTotal dk data) else none) ∧
      pieAngleSum (pieSlices dk data) = 2 * Real.pi) ∧
    (∀ (dk : String) (data : List Value) (showT : Bool),
      pieTotal dk data = .num 0 → pieResultOf dk data showT = .noData) := by
  constructor
  · intro dk data showT qs hmap hpos hsum
    have htot : pieTotal dk data = .num qs.sum := pieTotal_num hmap
    have ht0 : qs.sum ≠ 0 := ne_of_gt hsum
    constructor
    · unfold pieResultOf
      rw [htot, if_neg (by simp [ht0])]
    · unfold pieSlices
      rw [htot, pieAngleSum_fracs, pieWalk_fracs ht0 data qs 0 (.num 0) hmap,
        map_frac_sum, filter_pos_sum qs hpos, div_self ht0]
      norm_num
  · intro dk data showT h
    unfold pieResultOf
    rw [h, if_pos rfl]

lemma resolvedNum_value_num (q : ℚ) :
    resolvedNum "value" (.obj [("value", .num q)]) = .num q := by
  unfold resolvedNum
  rw [show resolveData "value" (.obj [("value", Value.num q)]) = .num q from rfl]
  unfold jsOr
  by_cases h : q = 0
  · subst h
    rw [if_neg (by simp [jsTruthy])]
    rfl
  · rw [if_pos (by simp [jsTruthy, h])]
    rfl

theorem pie_slice_angles_witness :
    pieResultOf "value" [.obj [("value", .num 2)]] false
      = .wedges (pieSlices "value" [.obj [("value", .num 2)]])
          (if false then some (pieTotal "value" [.obj [("value", .num 2)]]) else none) ∧
    pieAngleSum (pieSlices "value" [.obj [("value", .num 2)]]) = 2 * Real.pi ∧
    pieResultOf "value" [.obj [("value", .num 0)], .obj [("value", .num 0)]] false
      = .noData := by
  have hmap : ([Value.obj [("value", Value.num 2)]]).map (resolvedNum "value")
      = ([2] : List ℚ).map JsNum.num := by
    simp [resolvedNum_value_num]
  have hmain := pie_slice_angles.1 "value" _ false [2] hmap
    (by intro x hx; rw [List.mem_singleton] at hx; subst hx; norm_num)
    (by norm_num)
  have htot0 : pieTotal "value" [.obj [("value", .num 0)], .obj [("value", .num 0)]]
      = .num 0 := by
    have h0 : ([Value.obj [("value", Value.num 0)], Value.obj [("value", Value.num 0)]]).map
        (resolvedNum "value") = ([0, 0] : List ℚ).map JsNum.num := by
      simp [resolvedNum_value_num]
    rw [pieTotal_num h0]
    norm_num
  exact ⟨hmain.1, hmain.2, pie_slice_angles.2 "value" _ false htot0⟩

/-- C2 counterexample: rows `[{value: -1}, {value: 2}]` give `total = 1 > 0`,
but the `-1` row is skipped while still being counted in the total, so the
single drawn wedge spans `(2/1) × 2π = 4π ≠ 2π`. -/
theorem pie_slice_angles_counterexample :
    pieTotal "value" [.obj [("value", .num (-1))], .obj [("value", .num 2)]] = .num 1 ∧
    pieAngleSum (pieSlices "value"
        [.obj [("value", .num (-1))], .obj [("value", .num 2)]])
      ≠ 2 * Real.pi := by
  have hmap : ([Value.obj [("value", Value.num (-1))],
      Value.obj [("value", Value.num 2)]]).map (resolvedNum "value")
      = ([-1, 2] : List ℚ).map JsNum.num := by
    simp [resolvedNum_value_num]
  have htot : pieTotal "value"
      [.obj [("value", .num (-1))], .obj [("value", .num 2)]] = .num 1 := by
    rw [pieTotal_num hmap]; norm_num
  refine ⟨htot, ?_⟩
  have hfr := @pieWalk_fracs "value" 1 (by norm_num)
    [.obj [("value", .num (-1))], .obj [("value", .num 2)]] [-1, 2] 0 (.num 0) hmap
  have hfil : (([-1, 2] : List ℚ).filter (fun q => 0 < q)) = [2] := by
    norm_num [List.filter]
  rw [hfil] at hfr
  unfold pieSlices
  have hsum2 : ((([2] : List ℚ).sum / 1 : ℚ) : ℝ) = 2 := by norm_num
  rw [htot, pieAngleSum_fracs, hfr, map_frac_sum, hsum2]
  intro heq
  nlinarith [Real.pi_pos]

lemma listStartsWith_map_lower {cs ps : List Char}
    (h : listStartsWith cs ps = true) :
    listStartsWith (cs.map Char.toLower) (ps.map Char.toLower) = true := by
  induction ps generalizing cs with
  | nil => simp [listStartsWith]
  | cons p ps ih =>
      cases cs with
      | nil => simp [listStartsWith] at h
      | cons c cs' =>
          simp only [listStartsWith, Bool.and_eq_true, beq_iff_eq] at h
          simp only [List.map_cons, listStartsWith, Bool.and_eq_true, beq_iff_eq]
          exact ⟨by rw [h.1], ih h.2⟩

lemma listContainsSub_map_lower {cs ps : List Char}
    (h : listContainsSub cs ps = true) :
    listContainsSub (cs.map Char.toLower) (ps.map Char.toLower) = true := by
  induction cs with
  | nil =>
      simp only [listContainsSub, List.isEmpty_iff] at h
      subst h
      simp [listContainsSub]
  | cons c cs' ih =>
      simp only [listContainsSub, Bool.or_eq_true] at h
      rcases h with h | h
      · have := listStartsWith_map_lower h
        simp only [List.map_cons] at this ⊢
        simp [listContainsSub, this]
      · simp only [List.map_cons, listContainsSub, Bool.or_eq_true]
        exact Or.inr (ih h)

lemma strIncludes_lower {s pat : String}
    (hpat : pat.data.map Char.toLower = pat.data)
    (h : strIncludes s pat = true) :
    strIncludes (lowerStr s) pat = true := by
  unfold strIncludes at h ⊢
  unfold lowerStr
  rw [show (String.mk (s.data.map Char.toLower)).data = s.data.map Char.toLower from rfl,
    ← hpat]
  exact listContainsSub_map_lower h

lemma getPropPure_obj (fields : List (String × Value)) (k : String) :
    getPropPure (.obj fields) k = (lookupField fields k).getD .undefined := rfl

lemma lookupField_objSet_self (a : List (String × Value)) (k : String) (v : Value) :
    lookupField (objSet a k v) k = some v := by
  induction a with
  | nil => simp [objSet, lookupField]
  | cons p rest ih =>
      obtain ⟨k', v'⟩ := p
      by_cases h : k' = k
      · subst h
        simp [objSet, lookupField]
      · simp [objSet, lookupField, h, ih]

lemma lookupField_objSet_ne (a : List (String × Value)) (k k' : String) (v : Value)
    (h : k' ≠ k) :
    lookupField (objSet a k' v) k = lookupField a k := by
  induction a with
  | nil => simp [objSet, lookupField, h]
  | cons p rest ih =>
      obtain ⟨k₀, v₀⟩ := p
      by_cases h0 : k₀ = k'
      · subst h0
        simp [objSet, lookupField, h]
      · by_cases h1 : k₀ = k
        · subst h1
          simp [objSet, lookupField, h0]
        · simp [objSet, lookupField, h0, h1, ih]

lemma fold_objSet_lookup (f : String → Value) (ss : List ChartSeries) :
    ∀ (acc : List (String × Value)) (k : String),
    lookupField acc k = some (f k) →
    lookupField (ss.foldl (fun a s => objSet a s.dataKey (f s.dataKey)) acc) k
      = some (f k) := by
  induction ss with
  | nil => intro acc k h; exact h
  | cons s₀ rest ih =>
      intro acc k h
      rw [List.foldl_cons]
      apply ih
      by_cases hk : s₀.dataKey = k
      · rw [hk, lookupField_objSet_self]
      · rw [lookupField_objSet_ne acc k s₀.dataKey (f s₀.dataKey) hk]
        exact h

lemma fold_objSet_mem (f : String → Value) (ss : List ChartSeries) :
    ∀ (acc : List (String × Value)) (s : ChartSeries), s ∈ ss →
    lookupField (ss.foldl (fun a s' => objSet a s'.dataKey (f s'.dataKey)) acc) s.dataKey
      = some (f s.dataKey) := by
  induction ss with
  | nil => intro acc s h; exact absurd h (List.not_mem_nil s)
  | cons s₀ rest ih =>
      intro acc s hs
      rw [List.foldl_cons]
      rcases List.mem_cons.mp hs with h | h
      · subst h
        exact fold_objSet_lookup f rest _ _ (lookupField_objSet_self _ _ _)
      · exact ih _ s h

lemma sin_nat_lt_one (n : ℕ) : Real.sin n < 1 := by
  rcases lt_or_eq_of_le (Real.sin_le_one (n : ℝ)) with h | h
  · exact h
  · exfalso
    rcases Real.sin_eq_one_iff.mp h with ⟨k, hk⟩
    have h2 : Real.pi * (1 / 2 + 2 * (k : ℝ)) = (n : ℝ) := by
      rw [← hk]; ring
    have hd : (1 / 2 + 2 * (k : ℝ)) ≠ 0 := by
      intro h0
      have h4 : ((1 + 4 * k : ℤ) : ℝ) = 0 := by push_cast; linarith
      have h5 : (1 + 4 * k : ℤ) = 0 := by exact_mod_cast h4
      omega
    have hpi2 : Real.pi = (n : ℝ) / (1 / 2 + 2 * (k : ℝ)) := by
      rw [eq_div_iff hd]; exact h2
    have hrat : Real.pi = (((n : ℚ) / (1 / 2 + 2 * (k : ℚ))) : ℚ) := by
      push_cast
      exact hpi2
    exact irrational_pi ⟨_, hrat.symm⟩

lemma synthValue_range (i seed : ℕ) :
    20 ≤ synthValue i seed ∧ synthValue i seed < 100 := by
  unfold synthValue
  have hx : ((i : ℝ) + (seed : ℝ)) = ((i + seed : ℕ) : ℝ) := by push_cast; ring
  constructor
  · have h1 : (0 : ℝ) ≤ (Real.sin ((i : ℝ) + (seed : ℝ)) + 1) * 40 := by
      nlinarith [Real.neg_one_le_sin ((i : ℝ) + (seed : ℝ))]
    have h0 := Int.floor_nonneg.mpr h1
    linarith
  · have hs1 : Real.sin ((i : ℝ) + (seed : ℝ)) < 1 := by
      rw [hx]; exact sin_nat_lt_one _
    have h2 : (Real.sin ((i : ℝ) + (seed : ℝ)) + 1) * 40 < 80 := by nlinarith
    have h3 : ⌊(Real.sin ((i : ℝ) + (seed : ℝ)) + 1) * 40⌋ < 80 :=
      Int.floor_lt.mpr (by exact_mod_cast h2)
    linarith

/-- C1: synthetic chart rows are exact and deterministic — a category key
containing `"month"` yields exactly `["Jan","Feb","Mar","Apr","May"]`; every
series value in a generated row is exactly
`floor((sin(i + seed) + 1) * 40) + 20` for `seed` the summed character codes
of the series' `dataKey`; that value always lies in `[20, 100)`; and with
`previewMode = false` (or a falsy key) the generated data is the synthetic
row set, independent of the data context (hence identical across calls). -/
theorem synth_chart_rows_exact :
    (∀ ck : String, strIncludes ck "month" = true →
      synthCategories ck = ["Jan", "Feb", "Mar", "Apr", "May"]) ∧
    (∀ (ck cat : String) (i : ℕ) (seriesL : List ChartSeries) (s : ChartSeries),
      s ∈ seriesL →
      getPropPure (synthRow ck seriesL cat i) s.dataKey
        = .num (synthValue i (seedOf s.dataKey))) ∧
    (∀ i seed : ℕ, 20 ≤ synthValue i seed ∧ synthValue i seed < 100) ∧
    (∀ (key : Option String) (ck : String) (sl : List ChartSeries) (pm : Bool)
      (ctx ctx' : Value), pm = false ∨ optTruthy key = false →
      chartInput key ck sl pm ctx = chartInput key ck sl pm ctx' ∧
      chartInput key ck sl pm ctx = .rows (synthRows ck sl)) := by
  refine ⟨?_, ?_, synthValue_range, ?_⟩
  · intro ck h
    have hm : strIncludes (lowerStr ck) "month" = true :=
      strIncludes_lower (by decide) h
    unfold synthCategories
    rw [if_pos hm]
  · intro ck cat i seriesL s hs
    unfold synthRow
    rw [getPropPure_obj,
      fold_objSet_mem (fun k => Value.num (synthValue i (seedOf k))) seriesL _ s hs]
    rfl
  · intro key ck sl pm ctx ctx' h
    have hoff : ∀ c : Value, chartInput key ck sl pm c = .rows (synthRows ck sl) := by
      intro c
      unfold chartInput
      rcases h with h | h <;> rw [if_neg (by simp [h])]
    rw [hoff ctx, hoff ctx']
    exact ⟨rfl, rfl⟩

theorem synth_chart_rows_exact_witness :
    synthCategories "month" = ["Jan", "Feb", "Mar", "Apr", "May"] ∧
    getPropPure (synthRow "month" [defaultSeries] "Jan" 0) "value"
      = .num (synthValue 0 (seedOf "value")) ∧
    (20 ≤ synthValue 2 541 ∧ synthValue 2 541 < 100) ∧
    chartInput none "month" [defaultSeries] false (.obj [])
      = .rows (synthRows "month" [defaultSeries]) :=
  ⟨synth_chart_rows_exact.1 "month" (by decide),
   synth_chart_rows_exact.2.1 "month" "Jan" 0 [defaultSeries] defaultSeries (by decide),
   synth_chart_rows_exact.2.2.1 2 541,
   (synth_chart_rows_exact.2.2.2 none "month" [defaultSeries] false (.obj []) (.obj [])
     (Or.inl rfl)).2⟩
